import Mathlib

/-!
Verification of the port LED status logic in
stratum/hal/lib/common/utils.cc: the per-port classifier
FindPortLedColorAndState and the trunk-level aggregator
AggregatePortLedColorsStatePairs, embedded shallowly as Lean functions
over the closed enumerations of the proto definitions.
-/

/-- Embedding of the LedColor enumeration. -/
inductive LedColor where
  | LED_COLOR_UNKNOWN
  | LED_COLOR_GREEN
  | LED_COLOR_AMBER
  deriving DecidableEq, Fintype, Repr

/-- Embedding of the LedState enumeration. -/
inductive LedState where
  | LED_STATE_UNKNOWN
  | LED_STATE_OFF
  | LED_STATE_SOLID
  | LED_STATE_BLINKING_SLOW
  | LED_STATE_BLINKING_FAST
  deriving DecidableEq, Fintype, Repr

/-- Embedding of PortLedConfig, the std::pair of LedColor and LedState. -/
abbrev PortLedConfig := LedColor × LedState

/-- Embedding of the AdminState enumeration. -/
inductive AdminState where
  | ADMIN_STATE_UNKNOWN
  | ADMIN_STATE_ENABLED
  | ADMIN_STATE_DISABLED
  | ADMIN_STATE_DIAG
  deriving DecidableEq, Fintype, Repr

/-- Embedding of the PortState enumeration. -/
inductive PortState where
  | PORT_STATE_UNKNOWN
  | PORT_STATE_UP
  | PORT_STATE_DOWN
  | PORT_STATE_FAILED
  deriving DecidableEq, Fintype, Repr

/-- Embedding of the HealthState enumeration. -/
inductive HealthState where
  | HEALTH_STATE_UNKNOWN
  | HEALTH_STATE_GOOD
  | HEALTH_STATE_BAD
  deriving DecidableEq, Fintype, Repr

/-- Embedding of the TrunkMemberBlockState enumeration. -/
inductive TrunkMemberBlockState where
  | TRUNK_MEMBER_BLOCK_STATE_UNKNOWN
  | TRUNK_MEMBER_BLOCK_STATE_FORWARDING
  | TRUNK_MEMBER_BLOCK_STATE_BLOCKED
  deriving DecidableEq, Fintype, Repr

open LedColor LedState AdminState PortState HealthState TrunkMemberBlockState

/-- Embedding of FindPortLedColorAndState (utils.cc lines 136 to 168): the
sequential conditionals of the source, in source order. -/
def FindPortLedColorAndState (admin_state : AdminState) (oper_state : PortState)
    (health_state : HealthState) (block_state : TrunkMemberBlockState) :
    PortLedConfig :=
  if admin_state ≠ ADMIN_STATE_ENABLED then
    (LED_COLOR_AMBER, LED_STATE_SOLID)
  else if oper_state ≠ PORT_STATE_UP then
    (LED_COLOR_GREEN, LED_STATE_OFF)
  else if block_state = TRUNK_MEMBER_BLOCK_STATE_BLOCKED then
    (LED_COLOR_GREEN, LED_STATE_BLINKING_SLOW)
  else if health_state = HEALTH_STATE_GOOD then
    (LED_COLOR_GREEN, LED_STATE_SOLID)
  else if health_state = HEALTH_STATE_BAD then
    (LED_COLOR_AMBER, LED_STATE_BLINKING_FAST)
  else
    (LED_COLOR_GREEN, LED_STATE_BLINKING_FAST)

/-- Embedding of the while-loop body of AggregatePortLedColorsStatePairs
(utils.cc lines 180 to 197): acc is the running aggregate pair, e the element
the iterator points at. -/
def aggregateLoopBody (acc e : PortLedConfig) : PortLedConfig :=
  if acc.1 ≠ e.1 ∨ acc.2 ≠ e.2 then
    if (acc.1 = LED_COLOR_AMBER ∧
          (acc.2 = LED_STATE_BLINKING_SLOW ∨ acc.2 = LED_STATE_BLINKING_FAST)) ∨
        (e.1 = LED_COLOR_AMBER ∧
          (e.2 = LED_STATE_BLINKING_SLOW ∨ e.2 = LED_STATE_BLINKING_FAST)) then
      (LED_COLOR_AMBER, LED_STATE_BLINKING_SLOW)
    else
      (LED_COLOR_AMBER, LED_STATE_SOLID)
  else
    acc

/-- Embedding of AggregatePortLedColorsStatePairs (utils.cc lines 170 to 200):
the empty vector returns the unknown pair, otherwise the aggregate is
initialized to the first element and the loop body is folded over the rest. -/
def AggregatePortLedColorsStatePairs (color_state_pairs : List PortLedConfig) :
    PortLedConfig :=
  match color_state_pairs with
  | [] => (LED_COLOR_UNKNOWN, LED_STATE_UNKNOWN)
  | first :: rest => rest.foldl aggregateLoopBody first

/-- Modelled from the spec: the six-rule strict-priority decision policy of
section 4.1, written from the words of the spec, to be compared with the
source classifier. -/
def classifySpec (admin : AdminState) (oper : PortState) (health : HealthState)
    (block : TrunkMemberBlockState) : PortLedConfig :=
  if admin ≠ ADMIN_STATE_ENABLED then
    (LED_COLOR_AMBER, LED_STATE_SOLID)
  else if oper ≠ PORT_STATE_UP then
    (LED_COLOR_GREEN, LED_STATE_OFF)
  else if block = TRUNK_MEMBER_BLOCK_STATE_BLOCKED then
    (LED_COLOR_GREEN, LED_STATE_BLINKING_SLOW)
  else if health = HEALTH_STATE_GOOD then
    (LED_COLOR_GREEN, LED_STATE_SOLID)
  else if health = HEALTH_STATE_BAD then
    (LED_COLOR_AMBER, LED_STATE_BLINKING_FAST)
  else
    (LED_COLOR_GREEN, LED_STATE_BLINKING_FAST)

/-- An indicator that is currently signaling an amber-blinking alarm: the
condition the aggregator loop tests on each side of a conflict. -/
def isAmberBlink (p : PortLedConfig) : Prop :=
  p.1 = LED_COLOR_AMBER ∧
    (p.2 = LED_STATE_BLINKING_SLOW ∨ p.2 = LED_STATE_BLINKING_FAST)

instance (p : PortLedConfig) : Decidable (isAmberBlink p) := by
  unfold isAmberBlink
  infer_instance

/-- The loop body leaves an aggregate equal to the element unchanged. -/
lemma aggregateLoopBody_self : ∀ acc : PortLedConfig,
    aggregateLoopBody acc acc = acc := by decide

/-- An amber-blinking-slow aggregate absorbs every element. -/
lemma aggregateLoopBody_bs : ∀ e : PortLedConfig,
    aggregateLoopBody (LED_COLOR_AMBER, LED_STATE_BLINKING_SLOW) e =
    (LED_COLOR_AMBER, LED_STATE_BLINKING_SLOW) := by decide

/-- A conflict whose running aggregate is amber-blinking merges to
amber-blinking-slow. -/
lemma aggregateLoopBody_blink_left : ∀ acc e : PortLedConfig,
    isAmberBlink acc → acc ≠ e →
    aggregateLoopBody acc e = (LED_COLOR_AMBER, LED_STATE_BLINKING_SLOW) := by
  decide

/-- A conflict whose incoming element is amber-blinking merges to
amber-blinking-slow. -/
lemma aggregateLoopBody_blink_right : ∀ acc e : PortLedConfig,
    isAmberBlink e → acc ≠ e →
    aggregateLoopBody acc e = (LED_COLOR_AMBER, LED_STATE_BLINKING_SLOW) := by
  decide

/-- A conflict with no amber-blinking side merges to solid amber. -/
lemma aggregateLoopBody_no_blink : ∀ acc e : PortLedConfig,
    ¬ isAmberBlink acc → ¬ isAmberBlink e → acc ≠ e →
    aggregateLoopBody acc e = (LED_COLOR_AMBER, LED_STATE_SOLID) := by decide

lemma not_isAmberBlink_solid :
    ¬ isAmberBlink (LED_COLOR_AMBER, LED_STATE_SOLID) := by decide

/-- Folding the loop body over elements all equal to the aggregate leaves the
aggregate unchanged. -/
lemma foldl_allEq : ∀ (l : List PortLedConfig) (acc : PortLedConfig),
    (∀ e ∈ l, e = acc) → l.foldl aggregateLoopBody acc = acc := by
  intro l
  induction l with
  | nil => intro acc _; rfl
  | cons e t ih =>
    intro acc h
    rw [List.foldl_cons, h e (List.mem_cons_self e t), aggregateLoopBody_self]
    exact ih acc fun x hx => h x (List.mem_cons_of_mem e hx)

/-- Folding the loop body from the amber-blinking-slow aggregate stays at
amber-blinking-slow. -/
lemma foldl_bs : ∀ l : List PortLedConfig,
    l.foldl aggregateLoopBody (LED_COLOR_AMBER, LED_STATE_BLINKING_SLOW) =
    (LED_COLOR_AMBER, LED_STATE_BLINKING_SLOW) := by
  intro l
  induction l with
  | nil => rfl
  | cons e t ih => rw [List.foldl_cons, aggregateLoopBody_bs]; exact ih

/-- From an amber-blinking aggregate, a fold over a list that is not all equal
to the aggregate ends at amber-blinking-slow. -/
lemma foldl_accBlink_notAll : ∀ (l : List PortLedConfig) (acc : PortLedConfig),
    isAmberBlink acc → ¬ (∀ e ∈ l, e = acc) →
    l.foldl aggregateLoopBody acc =
      (LED_COLOR_AMBER, LED_STATE_BLINKING_SLOW) := by
  intro l
  induction l with
  | nil =>
    intro acc _ hn
    exact absurd (fun e he => absurd he (List.not_mem_nil e)) hn
  | cons e t ih =>
    intro acc hacc hn
    by_cases he : e = acc
    · rw [List.foldl_cons, he, aggregateLoopBody_self]
      refine ih acc hacc fun hall => hn fun x hx => ?_
      rcases List.mem_cons.mp hx with h1 | h2
      · rw [h1]; exact he
      · exact hall x h2
    · rw [List.foldl_cons,
        aggregateLoopBody_blink_left acc e hacc fun h => he h.symm]
      exact foldl_bs t

/-- From a non-amber-blinking aggregate, a fold over a list containing an
amber-blinking element ends at amber-blinking-slow. -/
lemma foldl_elemBlink : ∀ (l : List PortLedConfig) (acc : PortLedConfig),
    ¬ isAmberBlink acc → (∃ e ∈ l, isAmberBlink e) →
    l.foldl aggregateLoopBody acc =
      (LED_COLOR_AMBER, LED_STATE_BLINKING_SLOW) := by
  intro l
  induction l with
  | nil =>
    intro acc _ hex
    obtain ⟨e, he, _⟩ := hex
    exact absurd he (List.not_mem_nil e)
  | cons e t ih =>
    intro acc hacc hex
    obtain ⟨x, hx, hbx⟩ := hex
    by_cases hbe : isAmberBlink e
    · have hne : acc ≠ e := fun h => hacc (h ▸ hbe)
      rw [List.foldl_cons, aggregateLoopBody_blink_right acc e hbe hne]
      exact foldl_bs t
    · have hxt : x ∈ t := by
        rcases List.mem_cons.mp hx with h1 | h2
        · exact absurd (h1 ▸ hbx) hbe
        · exact h2
      by_cases he : e = acc
      · rw [List.foldl_cons, he, aggregateLoopBody_self]
        exact ih acc hacc ⟨x, hxt, hbx⟩
      · rw [List.foldl_cons,
          aggregateLoopBody_no_blink acc e hacc hbe fun h => he h.symm]
        exact ih (LED_COLOR_AMBER, LED_STATE_SOLID) not_isAmberBlink_solid
          ⟨x, hxt, hbx⟩

/-- From a non-amber-blinking aggregate, a fold over a list with no
amber-blinking element and not all equal to the aggregate ends at solid
amber. -/
lemma foldl_noBlink_notAll : ∀ (l : List PortLedConfig) (acc : PortLedConfig),
    ¬ isAmberBlink acc → (∀ e ∈ l, ¬ isAmberBlink e) →
    ¬ (∀ e ∈ l, e = acc) →
    l.foldl aggregateLoopBody acc = (LED_COLOR_AMBER, LED_STATE_SOLID) := by
  intro l
  induction l with
  | nil =>
    intro acc _ _ hn
    exact absurd (fun e he => absurd he (List.not_mem_nil e)) hn
  | cons e t ih =>
    intro acc hacc hnb hn
    by_cases he : e = acc
    · rw [List.foldl_cons, he, aggregateLoopBody_self]
      refine ih acc hacc (fun x hx => hnb x (List.mem_cons_of_mem e hx))
        fun hall => hn fun x hx => ?_
      rcases List.mem_cons.mp hx with h1 | h2
      · rw [h1]; exact he
      · exact hall x h2
    · have hbe : ¬ isAmberBlink e := hnb e (List.mem_cons_self e t)
      rw [List.foldl_cons,
        aggregateLoopBody_no_blink acc e hacc hbe fun h => he h.symm]
      by_cases hall : ∀ x ∈ t, x = (LED_COLOR_AMBER, LED_STATE_SOLID)
      · exact foldl_allEq t _ hall
      · exact ih (LED_COLOR_AMBER, LED_STATE_SOLID) not_isAmberBlink_solid
          (fun x hx => hnb x (List.mem_cons_of_mem e hx)) hall

/-- Normal form of the aggregator: the unknown pair on the empty list, the
head when every element equals the head, amber-blinking-slow when the list is
mixed and some element is amber-blinking, and solid amber on any other mixed
list. -/
def aggNormalForm (l : List PortLedConfig) : PortLedConfig :=
  match l with
  | [] => (LED_COLOR_UNKNOWN, LED_STATE_UNKNOWN)
  | x :: rest =>
    if ∀ e ∈ x :: rest, e = x then x
    else if ∃ e ∈ x :: rest, isAmberBlink e then
      (LED_COLOR_AMBER, LED_STATE_BLINKING_SLOW)
    else (LED_COLOR_AMBER, LED_STATE_SOLID)

/-- The aggregator computes its normal form. -/
lemma aggregate_eq_normalForm (l : List PortLedConfig) :
    AggregatePortLedColorsStatePairs l = aggNormalForm l := by
  cases l with
  | nil => rfl
  | cons x rest =>
    show rest.foldl aggregateLoopBody x = _
    simp only [aggNormalForm]
    by_cases hall : ∀ e ∈ x :: rest, e = x
    · rw [if_pos hall]
      exact foldl_allEq rest x fun e he => hall e (List.mem_cons_of_mem x he)
    · rw [if_neg hall]
      have hnrest : ¬ ∀ e ∈ rest, e = x := by
        intro h
        refine hall fun e he => ?_
        rcases List.mem_cons.mp he with h1 | h2
        · exact h1
        · exact h e h2
      by_cases hx : isAmberBlink x
      · rw [if_pos ⟨x, List.mem_cons_self x rest, hx⟩]
        exact foldl_accBlink_notAll rest x hx hnrest
      · by_cases hex : ∃ e ∈ rest, isAmberBlink e
        · obtain ⟨e, he, hbe⟩ := hex
          rw [if_pos ⟨e, List.mem_cons_of_mem x he, hbe⟩]
          exact foldl_elemBlink rest x hx ⟨e, he, hbe⟩
        · have hnex : ¬ ∃ e ∈ x :: rest, isAmberBlink e := by
            rintro ⟨e, he, hbe⟩
            rcases List.mem_cons.mp he with h1 | h2
            · exact hx (h1 ▸ hbe)
            · exact hex ⟨e, h2, hbe⟩
          rw [if_neg hnex]
          exact foldl_noBlink_notAll rest x hx
            (fun e he hbe => hex ⟨e, he, hbe⟩) hnrest

/-- The normal form depends only on the multiset of elements. -/
lemma aggNormalForm_perm : ∀ {l l' : List PortLedConfig}, l.Perm l' →
    aggNormalForm l = aggNormalForm l' := by
  intro l l' h
  cases l with
  | nil =>
    rw [h.nil_eq]
  | cons x rest =>
    cases l' with
    | nil => exact absurd h.symm.nil_eq (by simp)
    | cons y rest' =>
      have hmem : ∀ a : PortLedConfig, a ∈ x :: rest ↔ a ∈ y :: rest' :=
        fun a => h.mem_iff
      simp only [aggNormalForm]
      by_cases hall : ∀ e ∈ x :: rest, e = x
      · have hyx : y = x := hall y ((hmem y).mpr (List.mem_cons_self y rest'))
        have hall' : ∀ e ∈ y :: rest', e = y := fun e he =>
          (hall e ((hmem e).mpr he)).trans hyx.symm
        rw [if_pos hall, if_pos hall']
        exact hyx.symm
      · have hall' : ¬ ∀ e ∈ y :: rest', e = y := by
          intro h'
          refine hall fun e he => ?_
          have hey : e = y := h' e ((hmem e).mp he)
          have hxy : x = y := h' x ((hmem x).mp (List.mem_cons_self x rest))
          rw [hey, ← hxy]
        rw [if_neg hall, if_neg hall']
        by_cases hb : ∃ e ∈ x :: rest, isAmberBlink e
        · obtain ⟨e, he, hbe⟩ := hb
          rw [if_pos ⟨e, he, hbe⟩,
            if_pos ⟨e, (hmem e).mp he, hbe⟩]
        · have hb' : ¬ ∃ e ∈ y :: rest', isAmberBlink e := by
            rintro ⟨e, he, hbe⟩
            exact hb ⟨e, (hmem e).mpr he, hbe⟩
          rw [if_neg hb, if_neg hb']

/-- The aggregator returns equal results on permuted inputs. -/
lemma aggregate_perm_helper (l l' : List PortLedConfig) (h : l.Perm l') :
    AggregatePortLedColorsStatePairs l = AggregatePortLedColorsStatePairs l' := by
  rw [aggregate_eq_normalForm, aggregate_eq_normalForm]
  exact aggNormalForm_perm h

/-- C1: FindPortLedColorAndState implements the six-rule strict-priority
decision policy, first match wins, and in particular every admin state other
than enabled yields solid amber regardless of the other three arguments. -/
theorem classifier_implements_priority_policy :
    (∀ (a : AdminState) (o : PortState) (h : HealthState)
        (b : TrunkMemberBlockState),
      FindPortLedColorAndState a o h b = classifySpec a o h b) ∧
    (∀ (o : PortState) (h : HealthState) (b : TrunkMemberBlockState),
      FindPortLedColorAndState ADMIN_STATE_UNKNOWN o h b =
        (LED_COLOR_AMBER, LED_STATE_SOLID) ∧
      FindPortLedColorAndState ADMIN_STATE_DISABLED o h b =
        (LED_COLOR_AMBER, LED_STATE_SOLID) ∧
      FindPortLedColorAndState ADMIN_STATE_DIAG o h b =
        (LED_COLOR_AMBER, LED_STATE_SOLID)) := by
  constructor
  · decide
  · decide

/-- C2: an aggregate over a sequence containing an amber-blinking-slow or
amber-blinking-fast member always has a blinking pattern: the per-member
amber-blinking alarm is never masked behind the solid-amber conflict
indicator. -/
theorem aggregate_preserves_amber_blink_alarm (l : List PortLedConfig)
    (h : (LED_COLOR_AMBER, LED_STATE_BLINKING_SLOW) ∈ l ∨
         (LED_COLOR_AMBER, LED_STATE_BLINKING_FAST) ∈ l) :
    (AggregatePortLedColorsStatePairs l).2 = LED_STATE_BLINKING_SLOW ∨
    (AggregatePortLedColorsStatePairs l).2 = LED_STATE_BLINKING_FAST := by
  have hex : ∃ e ∈ l, isAmberBlink e := by
    rcases h with h | h
    · exact ⟨_, h, by decide⟩
    · exact ⟨_, h, by decide⟩
  obtain ⟨e, he, hbe⟩ := hex
  cases l with
  | nil => exact absurd he (List.not_mem_nil e)
  | cons x rest =>
    rw [aggregate_eq_normalForm]
    simp only [aggNormalForm]
    by_cases hall : ∀ a ∈ x :: rest, a = x
    · rw [if_pos hall]
      have hx : isAmberBlink x := (hall e he) ▸ hbe
      rcases hx.2 with h2 | h2
      · exact Or.inl h2
      · exact Or.inr h2
    · rw [if_neg hall, if_pos ⟨e, he, hbe⟩]
      exact Or.inl rfl

/-- C2 witness: the aggregate of a green-solid member and an
amber-blinking-fast member has a blinking pattern. -/
theorem aggregate_preserves_amber_blink_alarm_witness :
    (AggregatePortLedColorsStatePairs
        [(LED_COLOR_GREEN, LED_STATE_SOLID),
         (LED_COLOR_AMBER, LED_STATE_BLINKING_FAST)]).2 =
      LED_STATE_BLINKING_SLOW ∨
    (AggregatePortLedColorsStatePairs
        [(LED_COLOR_GREEN, LED_STATE_SOLID),
         (LED_COLOR_AMBER, LED_STATE_BLINKING_FAST)]).2 =
      LED_STATE_BLINKING_FAST :=
  aggregate_preserves_amber_blink_alarm
    [(LED_COLOR_GREEN, LED_STATE_SOLID),
     (LED_COLOR_AMBER, LED_STATE_BLINKING_FAST)]
    (Or.inr (by decide))

/-- C3: on a conflict the fold merges to amber-blinking-slow when either the
accumulator or the element is amber-blinking-slow or amber-blinking-fast, and
to solid amber otherwise; in particular green-solid with amber-blinking-fast
aggregates to amber-blinking-slow, and green-solid with green-off aggregates
to solid amber. -/
theorem aggregate_conflict_merge_rule :
    (∀ acc e : PortLedConfig, acc ≠ e →
      aggregateLoopBody acc e =
        if acc = (LED_COLOR_AMBER, LED_STATE_BLINKING_SLOW) ∨
            acc = (LED_COLOR_AMBER, LED_STATE_BLINKING_FAST) ∨
            e = (LED_COLOR_AMBER, LED_STATE_BLINKING_SLOW) ∨
            e = (LED_COLOR_AMBER, LED_STATE_BLINKING_FAST) then
          (LED_COLOR_AMBER, LED_STATE_BLINKING_SLOW)
        else (LED_COLOR_AMBER, LED_STATE_SOLID)) ∧
    AggregatePortLedColorsStatePairs
        [(LED_COLOR_GREEN, LED_STATE_SOLID),
         (LED_COLOR_AMBER, LED_STATE_BLINKING_FAST)] =
      (LED_COLOR_AMBER, LED_STATE_BLINKING_SLOW) ∧
    AggregatePortLedColorsStatePairs
        [(LED_COLOR_GREEN, LED_STATE_SOLID),
         (LED_COLOR_GREEN, LED_STATE_OFF)] =
      (LED_COLOR_AMBER, LED_STATE_SOLID) := by
  refine ⟨?_, by decide, by decide⟩
  decide

/-- C4 counterexample: no input sequence with more than two pairwise distinct
indicators, and no permutation of it, makes the aggregator return different
results: the claimed order-dependence witness does not exist. -/
theorem aggregate_order_dependence_refuted :
    ¬ ∃ (l l' : List PortLedConfig),
      (∃ a ∈ l, ∃ b ∈ l, ∃ c ∈ l, a ≠ b ∧ a ≠ c ∧ b ≠ c) ∧
      l.Perm l' ∧
      AggregatePortLedColorsStatePairs l ≠
        AggregatePortLedColorsStatePairs l' := by
  rintro ⟨l, l', -, hperm, hne⟩
  exact hne (aggregate_perm_helper l l' hperm)

/-- C4 amended: the aggregator is order-independent: permuting the input
sequence never changes the result, for conflicting sequences of any number of
distinct indicators. -/
theorem aggregate_permutation_invariant (l l' : List PortLedConfig)
    (h : l.Perm l') :
    AggregatePortLedColorsStatePairs l = AggregatePortLedColorsStatePairs l' :=
  aggregate_perm_helper l l' h

/-- C4 witness: a three-element sequence with three distinct conflicting
indicators aggregates to the same pair as a rotation of it. -/
theorem aggregate_permutation_invariant_witness :
    AggregatePortLedColorsStatePairs
        [(LED_COLOR_GREEN, LED_STATE_SOLID), (LED_COLOR_GREEN, LED_STATE_OFF),
         (LED_COLOR_AMBER, LED_STATE_BLINKING_FAST)] =
      AggregatePortLedColorsStatePairs
        [(LED_COLOR_AMBER, LED_STATE_BLINKING_FAST),
         (LED_COLOR_GREEN, LED_STATE_SOLID),
         (LED_COLOR_GREEN, LED_STATE_OFF)] :=
  aggregate_permutation_invariant
    [(LED_COLOR_GREEN, LED_STATE_SOLID), (LED_COLOR_GREEN, LED_STATE_OFF),
     (LED_COLOR_AMBER, LED_STATE_BLINKING_FAST)]
    [(LED_COLOR_AMBER, LED_STATE_BLINKING_FAST),
     (LED_COLOR_GREEN, LED_STATE_SOLID), (LED_COLOR_GREEN, LED_STATE_OFF)]
    (by decide)

/-- C5: the aggregator returns the unknown pair on the empty sequence and
returns a single element unchanged. -/
theorem aggregate_empty_and_singleton :
    AggregatePortLedColorsStatePairs [] =
      (LED_COLOR_UNKNOWN, LED_STATE_UNKNOWN) ∧
    ∀ x : PortLedConfig, AggregatePortLedColorsStatePairs [x] = x :=
  ⟨rfl, fun _ => rfl⟩

/-- C6: with admin enabled, oper up and the trunk member blocked, the
classifier returns green-blinking-slow for every health state; in particular
for good health. -/
theorem blocked_overrides_health :
    (∀ h : HealthState,
      FindPortLedColorAndState ADMIN_STATE_ENABLED PORT_STATE_UP h
        TRUNK_MEMBER_BLOCK_STATE_BLOCKED =
      (LED_COLOR_GREEN, LED_STATE_BLINKING_SLOW)) ∧
    FindPortLedColorAndState ADMIN_STATE_ENABLED PORT_STATE_UP
        HEALTH_STATE_GOOD TRUNK_MEMBER_BLOCK_STATE_BLOCKED =
      (LED_COLOR_GREEN, LED_STATE_BLINKING_SLOW) := by
  constructor
  · decide
  · decide

/-- C7: every indicator the classifier produces is one of six pairs, so not
all fifteen color and pattern combinations are reachable, and the unknown
color is never produced. -/
theorem classifier_range_six_pairs :
    ∀ (a : AdminState) (o : PortState) (h : HealthState)
      (b : TrunkMemberBlockState),
      FindPortLedColorAndState a o h b ∈
        ([(LED_COLOR_AMBER, LED_STATE_SOLID), (LED_COLOR_GREEN, LED_STATE_OFF),
          (LED_COLOR_GREEN, LED_STATE_BLINKING_SLOW),
          (LED_COLOR_GREEN, LED_STATE_SOLID),
          (LED_COLOR_AMBER, LED_STATE_BLINKING_FAST),
          (LED_COLOR_GREEN, LED_STATE_BLINKING_FAST)] :
          List PortLedConfig) ∧
      (FindPortLedColorAndState a o h b).1 ≠ LED_COLOR_UNKNOWN := by
  decide

/-- C8: the classifier is total: every input combination, including all four
states unknown, produces one of the defined indicators, and any health value
not explicitly matched falls through to the final else branch, returning
green-blinking-fast. -/
theorem classifier_total_function :
    (∀ (a : AdminState) (o : PortState) (h : HealthState)
        (b : TrunkMemberBlockState),
      FindPortLedColorAndState a o h b ∈
        ([(LED_COLOR_AMBER, LED_STATE_SOLID), (LED_COLOR_GREEN, LED_STATE_OFF),
          (LED_COLOR_GREEN, LED_STATE_BLINKING_SLOW),
          (LED_COLOR_GREEN, LED_STATE_SOLID),
          (LED_COLOR_AMBER, LED_STATE_BLINKING_FAST),
          (LED_COLOR_GREEN, LED_STATE_BLINKING_FAST)] :
          List PortLedConfig)) ∧
    FindPortLedColorAndState ADMIN_STATE_UNKNOWN PORT_STATE_UNKNOWN
        HEALTH_STATE_UNKNOWN TRUNK_MEMBER_BLOCK_STATE_UNKNOWN =
      (LED_COLOR_AMBER, LED_STATE_SOLID) ∧
    (∀ (a : AdminState) (o : PortState) (h : HealthState)
        (b : TrunkMemberBlockState),
      a = ADMIN_STATE_ENABLED → o = PORT_STATE_UP →
      b ≠ TRUNK_MEMBER_BLOCK_STATE_BLOCKED →
      h ≠ HEALTH_STATE_GOOD → h ≠ HEALTH_STATE_BAD →
      FindPortLedColorAndState a o h b =
        (LED_COLOR_GREEN, LED_STATE_BLINKING_FAST)) := by
  refine ⟨by decide, by decide, ?_⟩
  decide

/-- C9: aggregating the singleton wrap of an aggregate of a non-empty
sequence returns the aggregate unchanged. -/
theorem aggregate_idempotent_wrap (l : List PortLedConfig) (h : l ≠ []) :
    AggregatePortLedColorsStatePairs [AggregatePortLedColorsStatePairs l] =
      AggregatePortLedColorsStatePairs l := by
  cases l with
  | nil => exact absurd rfl h
  | cons x rest => rfl

/-- C9 witness: the idempotence equation at the non-empty sequence of one
green-solid member and one green-off member. -/
theorem aggregate_idempotent_wrap_witness :
    AggregatePortLedColorsStatePairs
        [AggregatePortLedColorsStatePairs
          [(LED_COLOR_GREEN, LED_STATE_SOLID),
           (LED_COLOR_GREEN, LED_STATE_OFF)]] =
      AggregatePortLedColorsStatePairs
        [(LED_COLOR_GREEN, LED_STATE_SOLID),
         (LED_COLOR_GREEN, LED_STATE_OFF)] :=
  aggregate_idempotent_wrap
    [(LED_COLOR_GREEN, LED_STATE_SOLID), (LED_COLOR_GREEN, LED_STATE_OFF)]
    (by decide)

/-- C10: the aggregate of a sequence with two unequal members always has the
amber color and a pattern that is solid or blinking-slow: never green or
unknown, never blinking-fast, off or unknown. -/
theorem aggregate_mixed_always_amber (l : List PortLedConfig)
    (a b : PortLedConfig) (ha : a ∈ l) (hb : b ∈ l) (hab : a ≠ b) :
    (AggregatePortLedColorsStatePairs l).1 = LED_COLOR_AMBER ∧
    ((AggregatePortLedColorsStatePairs l).2 = LED_STATE_SOLID ∨
     (AggregatePortLedColorsStatePairs l).2 = LED_STATE_BLINKING_SLOW) := by
  cases l with
  | nil => exact absurd ha (List.not_mem_nil a)
  | cons x rest =>
    rw [aggregate_eq_normalForm]
    simp only [aggNormalForm]
    have hall : ¬ ∀ e ∈ x :: rest, e = x := by
      intro hall
      exact hab ((hall a ha).trans (hall b hb).symm)
    rw [if_neg hall]
    by_cases hex : ∃ e ∈ x :: rest, isAmberBlink e
    · rw [if_pos hex]
      exact ⟨rfl, Or.inr rfl⟩
    · rw [if_neg hex]
      exact ⟨rfl, Or.inl rfl⟩

/-- C10 witness: the aggregate of a green-solid member and a green-off member
is amber with a solid or blinking-slow pattern. -/
theorem aggregate_mixed_always_amber_witness :
    (AggregatePortLedColorsStatePairs
        [(LED_COLOR_GREEN, LED_STATE_SOLID),
         (LED_COLOR_GREEN, LED_STATE_OFF)]).1 = LED_COLOR_AMBER ∧
    ((AggregatePortLedColorsStatePairs
        [(LED_COLOR_GREEN, LED_STATE_SOLID),
         (LED_COLOR_GREEN, LED_STATE_OFF)]).2 = LED_STATE_SOLID ∨
     (AggregatePortLedColorsStatePairs
        [(LED_COLOR_GREEN, LED_STATE_SOLID),
         (LED_COLOR_GREEN, LED_STATE_OFF)]).2 = LED_STATE_BLINKING_SLOW) :=
  aggregate_mixed_always_amber
    [(LED_COLOR_GREEN, LED_STATE_SOLID), (LED_COLOR_GREEN, LED_STATE_OFF)]
    (LED_COLOR_GREEN, LED_STATE_SOLID) (LED_COLOR_GREEN, LED_STATE_OFF)
    (by decide) (by decide) (by decide)
